import Mathlib

/-!
# Verification of the Armor Alley collision / AI core

Shallow embedding of the collision engine (`src/js/core/logic.js`), the
bomb-ledger in the helicopter AI (`src/js/units/Helicopter-AI.js`) and the
query construction in `src/js/core/global.js`.  JavaScript numbers are
modelled as exact rationals (`ℚ`), JS objects keyed by id as association
lists, and `undefined`-able fields as `Option`.
-/

namespace ArmorAlley

/-- Axis-aligned rectangle `{ x, y, width, height }` as used throughout
`logic.js`. -/
structure Rect where
  x : ℚ
  y : ℚ
  width : ℚ
  height : ℚ
deriving DecidableEq, Repr

/-- `collisionCheckX(rect1, rect2, rect1XLookAhead = 0)` from `logic.js`:
x-axis-only overlap with the look-ahead offset applied to `rect1`. -/
def collisionCheckX (rect1 rect2 : Rect) (rect1XLookAhead : ℚ := 0) : Bool :=
  (rect1.x + rect1XLookAhead < rect2.x + rect2.width) &&
  (rect1.x + rect1.width + rect1XLookAhead > rect2.x)

/-- `cc(rect1, rect2, rect1XLookAhead = 0)` from `logic.js` (exported as
`collisionCheck`; the debug wrapper only draws and then calls `cc`):
axis-aligned box overlap, with the x look-ahead extending `rect1`. -/
def cc (rect1 rect2 : Rect) (rect1XLookAhead : ℚ := 0) : Bool :=
  -- rect 2 is to the right.
  (rect1.x + rect1XLookAhead < rect2.x + rect2.width) &&
  -- overlap on x axis.
  (rect1.x + rect1.width + rect1XLookAhead > rect2.x) &&
  -- rect 1 is above rect 2.
  (rect1.y < rect2.y + rect2.height) &&
  -- overlap on y axis.
  (rect1.y + rect1.height > rect2.y)

/-- `collisionCheckWithOffsets(rect1, rect2, r1XOffset = 0, r1YOffset = 0)`
from `logic.js`: the overlap test with explicit x/y offsets applied to
`rect1`, used by `collisionCheckTweens`. -/
def collisionCheckWithOffsets (rect1 rect2 : Rect) (r1XOffset r1YOffset : ℚ) :
    Bool :=
  -- rect 2 is to the right.
  (rect1.x + r1XOffset < rect2.x + rect2.width) &&
  -- overlap on x axis.
  (rect1.x + rect1.width + r1XOffset > rect2.x) &&
  -- rect 1 is above rect 2.
  (rect1.y + r1YOffset < rect2.y + rect2.height) &&
  -- overlap on y axis.
  (rect1.y + r1YOffset + rect1.height > rect2.y)

/-- The slice of a unit's `data` consumed by `collisionCheckTweens`:
position, box size, per-frame velocity, plus the `expired` / `hostile`
flags of the exemption check. -/
structure TweenData where
  x : ℚ
  y : ℚ
  width : ℚ
  height : ℚ
  vX : ℚ
  vY : ℚ
  expired : Bool
  hostile : Bool
deriving DecidableEq, Repr

/-- The rectangle part of a unit's data. -/
def TweenData.toRect (d : TweenData) : Rect :=
  { x := d.x, y := d.y, width := d.width, height := d.height }

/-- `tweenSteps` from `collisionCheckTweens`:
`Math.max(minTweenSteps, parseInt(Math.max(|vX|, |vY|), 10) / 2)` with
`minTweenSteps = 2`.  `parseInt` truncates the (non-negative) maximum
toward zero, i.e. takes the floor; the subsequent division by 2 is plain
JS division, so `tweenSteps` may be a half-integer. -/
def tweenSteps (sData : TweenData) : ℚ :=
  max 2 ((Int.floor (max |sData.vX| |sData.vY|) : ℚ) / 2)

/-- Number of iterations of the `for (let i = 0; i < tweenSteps; i++)`
loop: the least natural number not less than `tweenSteps`. -/
def tweenStepCount (sData : TweenData) : ℕ :=
  Nat.ceil (tweenSteps sData)

/-- The offset checked by iteration `i` (0-based) of the tween loop:
starting from `-velocity` and stepping by `velocity / (tweenSteps + 1)`,
iteration `i` tests offset `-v + (i + 1) * v / (tweenSteps + 1)`. -/
def tweenOffsetX (sData : TweenData) (i : ℕ) : ℚ :=
  -sData.vX + (i + 1) * (sData.vX / (tweenSteps sData + 1))

/-- y component of the offset checked by iteration `i` of the tween loop. -/
def tweenOffsetY (sData : TweenData) (i : ℕ) : ℚ :=
  -sData.vY + (i + 1) * (sData.vY / (tweenSteps sData + 1))

/-- `collisionCheckTweens(sData, tData)` from `logic.js`, as a predicate on
the two data records: steps back to the previous-frame position and tests
the overlap at each strictly-intermediate offset, returning true on the
first hit.  Expired-and-non-hostile objects (either side) are exempt.  The
`repositionOnHit` side effect moves the source on a hit but does not
affect the returned Boolean, which is all this predicate captures (the
reposition itself is modelled where it matters, in
`collisionCheckObjectRun`). -/
def collisionCheckTweens (sData tData : TweenData) : Bool :=
  if (sData.expired && !sData.hostile) || (tData.expired && !tData.hostile)
  then false
  else
    (List.range (tweenStepCount sData)).any fun i =>
      collisionCheckWithOffsets sData.toRect tData.toRect
        (tweenOffsetX sData i) (tweenOffsetY sData i)

/-- First tween hit, if any: the offset at which the stepped check first
succeeds.  `collisionCheckTweens` returns true exactly when this is
`some`; on a hit with `repositionOnHit`, `collisionCheckObject` moves the
source by this offset. -/
def collisionCheckTweensHit (sData tData : TweenData) : Option (ℚ × ℚ) :=
  if (sData.expired && !sData.hostile) || (tData.expired && !tData.hostile)
  then none
  else
    ((List.range (tweenStepCount sData)).find? fun i =>
      collisionCheckWithOffsets sData.toRect tData.toRect
        (tweenOffsetX sData i) (tweenOffsetY sData i)).map
      fun i => (tweenOffsetX sData i, tweenOffsetY sData i)

/-- The closed enumeration of unit types (`TYPES` in `global.js`),
restricted to the constructors the embedded functions inspect. -/
inductive UnitType where
  | tank
  | van
  | missileLauncher
  | helicopter
  | bunker
  | balloon
  | smartMissile
  | turret
  | superBunker
  | endBunker
  | infantry
  | engineer
  | parachuteInfantry
  | cloud
  | gunfire
  | bomb
  | landingPad
deriving DecidableEq, Repr

/-- The slice of a unit's `data` consumed by `collisionCheckObject`:
identity, type, box, velocity, liveness / faction flags, the collision
exclusion flag, the infantry `role` flag (truthy for engineers) and the
optional cached look-ahead fields. -/
structure UData where
  id : String
  type : UnitType
  x : ℚ
  y : ℚ
  width : ℚ
  height : ℚ
  vX : ℚ
  vY : ℚ
  dead : Bool
  isInert : Bool
  expired : Bool
  hostile : Bool
  isEnemy : Bool
  isNeutral : Bool
  excludeFromCollision : Bool
  role : Bool
  xLookAhead : Option ℚ
  widthOneThird : Option ℚ
deriving DecidableEq, Repr

/-- The rectangle slice of a unit's data (`cc` is applied to the data
record directly in the source; it reads only `x`, `y`, `width`,
`height`). -/
def UData.toRect (d : UData) : Rect :=
  { x := d.x, y := d.y, width := d.width, height := d.height }

/-- The tween-check slice of a unit's data. -/
def UData.toTweenData (d : UData) : TweenData :=
  { x := d.x, y := d.y, width := d.width, height := d.height,
    vX := d.vX, vY := d.vY, expired := d.expired, hostile := d.hostile }

/-- JS `a || b` on an optionally-`undefined` number: the left value when
defined and truthy (nonzero), otherwise the right value. -/
def jsNumOr (a : Option ℚ) (b : ℚ) : ℚ :=
  match a with
  | some v => if v = 0 then b else v
  | none => b

/-- The look-ahead computation in `collisionCheckObject` for the
`useLookAhead` case: cache `widthOneThird = width * 0.33` when neither
cached field is present, then `xLookAhead || widthOneThird || 16`, negated
for enemy sources. -/
def effectiveLookAhead (sData : UData) : ℚ :=
  let widthOneThird :=
    if sData.xLookAhead = none && sData.widthOneThird = none
    then some (sData.width * (33 / 100))
    else sData.widthOneThird
  let xLookAhead := jsNumOr sData.xLookAhead (jsNumOr widthOneThird 16)
  if sData.isEnemy then -xLookAhead else xLookAhead

/-- The option flags of a collision dispatch
(`collision.options` in `logic.js`). -/
structure CollisionOpts where
  useLookAhead : Bool
  friendlyOnly : Bool
  checkTweens : Bool
  checkTweensRepositionOnHit : Bool
deriving DecidableEq, Repr

/-- The long eligibility check in `collisionCheckObject`'s target loop:
not the source itself, not excluded, not dead (except a dead turret versus
an engineer — infantry with `role`), and the faction / special-pair
rules. -/
def targetEligible (opts : CollisionOpts) (sData tData : UData) : Bool :=
  -- don't compare the object against itself
  (tData.id ≠ sData.id) &&
  -- ignore "excluded" objects (e.g., a helicopter hiding "inside" a super-bunker)
  !tData.excludeFromCollision &&
  -- ignore dead targets (unless a turret, which can be reclaimed / repaired by engineers)
  (!tData.dead ||
    (tData.type = .turret && sData.type = .infantry && sData.role)) &&
  -- most common case: enemy vs. non-enemy; otherwise the special friendly pairs,
  -- or a hostile / neutral object on either side
  ((tData.isEnemy ≠ sData.isEnemy && !opts.friendlyOnly) ||
    (opts.friendlyOnly && tData.isEnemy = sData.isEnemy) ||
    (sData.type = .helicopter && tData.type = .superBunker) ||
    (sData.type = .infantry && tData.type = .bunker) ||
    (tData.type = .infantry &&
      ((sData.type = .endBunker && !tData.role) ||
        (sData.type = .superBunker && !tData.role) ||
        sData.type = .helicopter)) ||
    (sData.type = .infantry && sData.role && tData.type = .turret) ||
    sData.hostile || tData.hostile || sData.isNeutral || tData.isNeutral)

/-- The per-target hit test in `collisionCheckObject`: plain overlap with
look-ahead, OR (if enabled) the tween check, OR the Super Bunker
negative-look-ahead case for helicopters.  Returns the source data
(possibly repositioned by a tween hit) and whether a hit occurred. -/
def targetHitTest (opts : CollisionOpts) (sData tData : UData)
    (xLookAhead : ℚ) : UData × Bool :=
  if cc sData.toRect tData.toRect xLookAhead then (sData, true)
  else if opts.checkTweens then
    match collisionCheckTweensHit sData.toTweenData tData.toTweenData with
    | some offset =>
        (if opts.checkTweensRepositionOnHit
         then { sData with x := sData.x + offset.1, y := sData.y + offset.2 }
         else sData, true)
    | none =>
        if tData.type = .helicopter && sData.type = .superBunker &&
            cc sData.toRect tData.toRect (-xLookAhead)
        then (sData, true) else (sData, false)
  else
    if tData.type = .helicopter && sData.type = .superBunker &&
        cc sData.toRect tData.toRect (-xLookAhead)
    then (sData, true) else (sData, false)

/-- The target loop of `collisionCheckObject`: walk the targets, test each
eligible one, record the id handed to `options.hit` for every hit, and
thread the source data (a tween hit with `checkTweensRepositionOnHit`
moves the source for the remaining iterations).  Returns the final source
data, whether any hit was found, and the hit ids in callback order. -/
def collisionCheckObjectLoop (opts : CollisionOpts) (xLookAhead : ℚ) :
    UData → List UData → UData × Bool × List String
  | sData, [] => (sData, false, [])
  | sData, tData :: rest =>
    if targetEligible opts sData tData then
      let step := targetHitTest opts sData tData xLookAhead
      let next := collisionCheckObjectLoop opts xLookAhead step.1 rest
      if step.2 then (next.1, true, tData.id :: next.2.2)
      else next
    else collisionCheckObjectLoop opts xLookAhead sData rest

/-- `collisionCheckObject(options)` from `logic.js`, over an explicit
target list (the zone buckets are objects iterated by id; dead / inert /
expired-non-hostile sources short-circuit with no candidates scanned).
Returns the final source data, the `foundHit` result and the list of ids
passed to the `options.hit` callback. -/
def collisionCheckObject (opts : CollisionOpts) (sData : UData)
    (targets : List UData) : UData × Bool × List String :=
  if sData.dead || sData.isInert || (sData.expired && !sData.hostile) then
    (sData, false, [])
  else
    let xLookAhead := if opts.useLookAhead then effectiveLookAhead sData else 0
    collisionCheckObjectLoop opts xLookAhead sData targets

/-- A `localObjects` entry built by `getNearestObject`: the candidate's
identity and the data fields the selection phase reads, plus the computed
Euclidean `totalDistance`. -/
structure NearCandidate where
  id : String
  type : UnitType
  bottomAligned : Bool
  totalDistance : ℚ
deriving DecidableEq, Repr

/-- Modelled from the spec: `utils.array.compare('totalDistance')`
(`utils.js` is not part of the provided sources); the spec's `nearest`
query "sorts ascending by distance", so the comparator orders candidates
by ascending `totalDistance` (stable, like `Array.prototype.sort`). -/
def sortByTotalDistance (l : List NearCandidate) : List NearCandidate :=
  List.insertionSort (fun a b => a.totalDistance ≤ b.totalDistance) l

/-- The selection phase of `getNearestObject` (`logic.js`), from the built
`localObjects` list onward, for the default single-candidate case
(`options.getAll` unset): return null on an empty list; sort ascending by
`totalDistance`; reverse for an enemy helicopter source; bail (return no
target) when the source is a helicopter, the first candidate is a super
bunker, and it is the only candidate or the next one is bottom-aligned;
otherwise drop a leading super bunker and return the first remaining
candidate's id. -/
def getNearestObjectSelect (sType : UnitType) (sIsEnemy : Bool)
    (localObjects : List NearCandidate) : Option String :=
  if localObjects.isEmpty then none
  else
    let sorted := sortByTotalDistance localObjects
    -- enemy helicopter: reverse the array.
    let sorted :=
      if sType = .helicopter && sIsEnemy then sorted.reverse else sorted
    if sType = .helicopter &&
        (match sorted with
         | b :: rest =>
           b.type = .superBunker &&
             (rest.isEmpty ||
               (match rest.head? with
                | some n => n.bottomAligned
                | none => false))
         | [] => false)
    then none
    else
      -- if a super bunker is still at [0], drop it and take the next one.
      let remaining : List NearCandidate :=
        match sorted with
        | b :: rest => if b.type = .superBunker then rest else sorted
        | [] => sorted
      remaining.head?.map (·.id)

/-! ## Bomb ledger (`Helicopter-AI.js`) -/

/-- The slice of a bomb target the ledger reads: its id and type. -/
structure BombTarget where
  id : String
  type : UnitType
deriving DecidableEq, Repr

/-- `getBombTargetID(target)`: infantry and engineers share the synthetic
key `'men'` when napalm is configured (`levelConfig.bNapalm`); everything
else is keyed by its own id. -/
def getBombTargetID (bNapalm : Bool) (t : BombTarget) : String :=
  if (t.type = .infantry || t.type = .engineer) && bNapalm then "men"
  else t.id

/-- A `bombsByTarget[id]` entry: `{ bombCount, bombLimit, timer }`.  The
`timer` field holds the handle of this entry's pending clear timeout, if
one is scheduled. -/
structure LedgerEntry where
  bombCount : ℕ
  bombLimit : ℕ
  timer : Option ℕ
deriving DecidableEq, Repr

/-- Whole ledger state: the `bombsByTarget` map as an association list,
the set of scheduled-and-not-yet-cancelled clear timeouts (handle paired
with the id its callback deletes), and a fresh-handle counter. -/
structure LedgerState where
  bombsByTarget : List (String × LedgerEntry)
  pending : List (ℕ × String)
  nextHandle : ℕ
deriving DecidableEq, Repr

/-- The empty ledger (`const bombsByTarget = {}`). -/
def LedgerState.init : LedgerState :=
  { bombsByTarget := [], pending := [], nextHandle := 0 }

/-- `bombsByTarget[id]` lookup. -/
def lookupEntry (id : String) : List (String × LedgerEntry) →
    Option LedgerEntry
  | [] => none
  | p :: rest => if p.1 = id then some p.2 else lookupEntry id rest

/-- Overwrite the entry stored under `id`. -/
def updateEntry (id : String) (e : LedgerEntry)
    (l : List (String × LedgerEntry)) : List (String × LedgerEntry) :=
  l.map fun p => if p.1 = id then (id, e) else p

/-- `delete bombsByTarget[id]`. -/
def eraseEntry (id : String) (l : List (String × LedgerEntry)) :
    List (String × LedgerEntry) :=
  l.filter fun p => ¬p.1 = id

/-- The `bombLimit` stored on a fresh entry: 3 for tanks and
helicopters, 1 for everything else. -/
def bombLimitFor (t : BombTarget) : ℕ :=
  if t.type = .tank || t.type = .helicopter then 3 else 1

/-- `canBombTarget(target)` from `Helicopter-AI.js`: turrets can be
carpet-bombed at will (and never get an entry); otherwise the entry is
created on first sight with `bombCount 0` and `bombLimit` 3 for tanks and
helicopters, 1 for everything else, and the call answers whether the
count is still below the limit (the at-capacity branch returns
`undefined`, i.e. false). -/
def canBombTarget (bNapalm : Bool) (t : BombTarget) (s : LedgerState) :
    Bool × LedgerState :=
  if t.type = .turret then (true, s)
  else
    let id := getBombTargetID bNapalm t
    match lookupEntry id s.bombsByTarget with
    | some e => (decide (e.bombCount < e.bombLimit), s)
    | none =>
      let e : LedgerEntry :=
        { bombCount := 0, bombLimit := bombLimitFor t, timer := none }
      (decide (e.bombCount < e.bombLimit),
        { s with bombsByTarget := (id, e) :: s.bombsByTarget })

/-- `addBomb(target)`: no entry, no-op; otherwise increment the count and
cancel (reset) any pending clear timer on the entry. -/
def addBomb (bNapalm : Bool) (t : BombTarget) (s : LedgerState) :
    LedgerState :=
  let id := getBombTargetID bNapalm t
  match lookupEntry id s.bombsByTarget with
  | none => s
  | some e =>
    { s with
      bombsByTarget :=
        updateEntry id
          { bombCount := e.bombCount + 1, bombLimit := e.bombLimit,
            timer := none }
          s.bombsByTarget,
      pending :=
        match e.timer with
        | some h => s.pending.filter fun p => ¬p.1 = h
        | none => s.pending }

/-- `removeBomb(target)`: no entry, no-op; otherwise
`bombCount = Math.max(0, bombCount - 1)` (natural subtraction), deleting
the entry when the count reaches 0.  A pending clear timeout is *not*
cancelled here. -/
def removeBomb (bNapalm : Bool) (t : BombTarget) (s : LedgerState) :
    LedgerState :=
  let id := getBombTargetID bNapalm t
  match lookupEntry id s.bombsByTarget with
  | none => s
  | some e =>
    if e.bombCount - 1 = 0 then
      { s with bombsByTarget := eraseEntry id s.bombsByTarget }
    else
      { s with
        bombsByTarget :=
          updateEntry id
            { bombCount := e.bombCount - 1, bombLimit := e.bombLimit,
              timer := e.timer }
            s.bombsByTarget }

/-- `clearBombWithDelay(target)`: no entry or a timer already pending,
no-op; otherwise schedule a timeout whose callback deletes the entry, and
store its handle on the entry.  The delay length is not modelled — expiry
is delivered as an explicit scheduler event (`LedgerOp.fire`). -/
def clearBombWithDelay (bNapalm : Bool) (t : BombTarget) (s : LedgerState) :
    LedgerState :=
  let id := getBombTargetID bNapalm t
  match lookupEntry id s.bombsByTarget with
  | none => s
  | some e =>
    match e.timer with
    | some _ => s
    | none =>
      { bombsByTarget :=
          updateEntry id
            { bombCount := e.bombCount, bombLimit := e.bombLimit,
              timer := some s.nextHandle }
            s.bombsByTarget,
        pending := (s.nextHandle, id) :: s.pending,
        nextHandle := s.nextHandle + 1 }

/-- Expiry of the frame timeout with handle `h`: if it is still scheduled
(not cancelled by `addBomb`), its callback `delete bombsByTarget[id]` runs
— deleting whatever entry is stored under that id at expiry time. -/
def fireClearTimer (h : ℕ) (s : LedgerState) : LedgerState :=
  match s.pending.find? fun p => p.1 = h with
  | none => s
  | some p =>
    { s with
      bombsByTarget := eraseEntry p.2 s.bombsByTarget,
      pending := s.pending.filter fun q => ¬q.1 = h }

/-- The bomb-drop call protocol at the only call site (`fire()` in the
helicopter unit): `if (!data.ai.canBombTarget(bombTarget)) return;
data.ai.addBomb(bombTarget);` — an `addBomb` guarded by an immediately
preceding successful `canBombTarget` on the same target. -/
def tryDropBomb (bNapalm : Bool) (t : BombTarget) (s : LedgerState) :
    LedgerState :=
  let r := canBombTarget bNapalm t s
  if r.1 then addBomb bNapalm t r.2 else r.2

/-- Events at the ledger's public interface: a `canBombTarget` query, a
guarded drop (`canBombTarget`-then-`addBomb`, as at the call site), a
`removeBomb`, a `clearBombWithDelay`, and the expiry of a scheduled clear
timeout. -/
inductive LedgerOp where
  | query (t : BombTarget)
  | drop (t : BombTarget)
  | remove (t : BombTarget)
  | clearDelay (t : BombTarget)
  | fire (h : ℕ)
deriving DecidableEq, Repr

/-- Apply one ledger event. -/
def applyLedgerOp (bNapalm : Bool) (s : LedgerState) : LedgerOp → LedgerState
  | .query t => (canBombTarget bNapalm t s).2
  | .drop t => tryDropBomb bNapalm t s
  | .remove t => removeBomb bNapalm t s
  | .clearDelay t => clearBombWithDelay bNapalm t s
  | .fire h => fireClearTimer h s

/-- Run a finite sequence of ledger events. -/
def runLedgerOps (bNapalm : Bool) (s : LedgerState) (ops : List LedgerOp) :
    LedgerState :=
  ops.foldl (applyLedgerOp bNapalm) s

/-- Executable check that no guarded drop in the list names a
turret-typed target (turrets bypass the ledger's capacity check
entirely, so a drop on a turret whose id aliases a ledger key could push
that key past its limit). -/
def noTurretDrops (ops : List LedgerOp) : Bool :=
  ops.all fun op =>
    match op with
    | .drop t => decide (t.type ≠ .turret)
    | _ => true

/-- Every entry of a `bombsByTarget` map respects its own limit. -/
def EntriesBounded (l : List (String × LedgerEntry)) : Prop :=
  ∀ p ∈ l, p.2.bombCount ≤ p.2.bombLimit

/-- Whether one event, taken in state `s`, leaves the ledger slot of key
`i` untouched: it is not a `removeBomb` mapping to `i`, nor the expiry of
a clear timeout scheduled for `i`. -/
def opGuard (bNapalm : Bool) (i : String) (s : LedgerState) :
    LedgerOp → Bool
  | .remove t => decide (getBombTargetID bNapalm t ≠ i)
  | .fire h =>
    match s.pending.find? fun p => p.1 = h with
    | some p => decide (p.2 ≠ i)
    | none => true
  | _ => true

/-- Executable check that an event sequence, run from `s`, never releases
the ledger slot of key `i`: no `removeBomb` maps to `i` and no scheduled
clear timeout for `i` expires. -/
def avoidsRelease (bNapalm : Bool) (i : String) :
    LedgerState → List LedgerOp → Bool
  | _, [] => true
  | s, op :: rest =>
    opGuard bNapalm i s op &&
      avoidsRelease bNapalm i (applyLedgerOp bNapalm s op) rest

/-! ## Query construction (`global.js`) -/

/-- Characters matched by the delimiter class `[\s|,]` of
`parseTypeString`. -/
def isDelimChar (c : Char) : Bool :=
  c = ' ' || c = ',' || c = '|' || c = '\t' || c = '\n' || c = '\r'

/-- `replace(/[\s|,]+/g, ' ')`: collapse every maximal run of delimiter
characters into a single space. -/
def collapseDelims : List Char → List Char
  | [] => []
  | [c] => if isDelimChar c then [' '] else [c]
  | c1 :: c2 :: rest =>
    if isDelimChar c1 && isDelimChar c2 then collapseDelims (c2 :: rest)
    else (if isDelimChar c1 then ' ' else c1) :: collapseDelims (c2 :: rest)

/-- JS `String.prototype.split` on a single separator character: split on
every occurrence, keeping empty pieces (`''.split(sep)` is `['']`). -/
def splitChars (sep : Char) : List Char → List (List Char)
  | [] => [[]]
  | c :: rest =>
    let r := splitChars sep rest
    if c = sep then [] :: r
    else
      match r with
      | h :: t => (c :: h) :: t
      | [] => [[c]]

/-- `parseTypeString(typeString)` from `global.js`: normalize delimiters
and split into tokens. -/
def parseTypeString (typeString : String) : List String :=
  (splitChars ' ' (collapseDelims typeString.toList)).map String.mk

/-- The comma-separated master list behind the `TYPES` table in
`global.js`. -/
def typesSource : List String :=
  ["aimed-missile", "base", "bomb", "balloon", "bunker", "chain", "cloud",
   "cornholio", "engineer", "flame", "gunfire", "helicopter", "infantry",
   "end-bunker", "landing-pad", "missile-launcher", "missile-napalm",
   "parachute-infantry", "smart-missile", "smoke", "shrapnel", "star",
   "super-bunker", "tank", "turret", "terrain-item", "van"]

/-- The camelCase alias of a dash-case type name:
`a = type.split('-'); a[1] = capitalize(a[1]); a.join('')`. -/
def camelKey (t : String) : String :=
  match splitChars '-' t.toList with
  | a0 :: a1 :: rest =>
    let a1' :=
      match a1 with
      | c :: cs => c.toUpper :: cs
      | [] => []
    String.mk (a0 ++ a1' ++ rest.flatten)
  | _ => t

/-- The `TYPES` table: every type name maps to itself, and every dash-case
name additionally gets a camelCase alias. -/
def typesPairs : List (String × String) :=
  typesSource.flatMap fun t =>
    (t, t) ::
      (if t.toList.contains '-' then [(camelKey t, t)] else [])

/-- `TYPES[key]`: `some` canonical type name, or `none` (JS `undefined`)
for an unknown token. -/
def lookupTYPES (k : String) : Option String :=
  (typesPairs.find? fun p => p.1 = k).map (·.2)

/-- The `exports.data` slice read by `determineGroup`. -/
structure ExportsData where
  isEnemy : Bool
  hostile : Bool
deriving DecidableEq, Repr

/-- `enemyGroupMap` from `global.js` (unknown keys give `undefined`). -/
def enemyGroupMap (g : String) : Option String :=
  if g = "friendly" then some "enemy"
  else if g = "enemy" then some "friendly"
  else none

/-- `determineGroup(group, exports)` from `global.js`: `'all'` passes
through; a missing `exports` warns and returns `undefined`; enemy or
hostile sources get the mapped (opposite) group. -/
def determineGroup (group : String) (exports : Option ExportsData) :
    Option String :=
  if group = "all" then some group
  else
    match exports with
    | none => none
    | some e =>
      if e.isEnemy || e.hostile then enemyGroupMap group else some group

/-- One entry of the list `getTypes` builds: the `TYPES` lookup of the
token (`undefined` for an unknown token) and the resolved group. -/
structure TypeGroupItem where
  type : Option String
  group : Option String
deriving DecidableEq, Repr

/-- `getTypes(typeString, options)` from `global.js`: default the group to
`'enemy'` when falsy, resolve it via `determineGroup` unless `'all'`, then
map each parsed token — with an optional `type:group` per-type override —
to `{ type: TYPES[token], group }`.  The function is total: no branch
raises, and an unknown token simply produces `type: undefined`. -/
def getTypes (typeString : String) (group? : Option String)
    (exports : Option ExportsData) : List TypeGroupItem :=
  let group :=
    match group? with
    | none => "enemy"
    | some g => if g = "" then "enemy" else g
  let topGroup : Option String :=
    if group ≠ "all" then determineGroup group exports else some group
  (parseTypeString typeString).map fun item =>
    if item.toList.contains ':' then
      match splitChars ':' item.toList with
      | k :: g :: _ =>
        { type := lookupTYPES (String.mk k),
          group := determineGroup (String.mk g) exports }
      | _ => { type := none, group := none }
    else
      { type := lookupTYPES item, group := topGroup }

/-! ## Weapon-intent resolution and retaliation (`Helicopter-AI.js`) -/

/-- The target-data slice kept in `data.ammoTargets` / `data.bombTargets`
votes: position and type. -/
structure VoteTargetData where
  x : ℚ
  type : UnitType
deriving DecidableEq, Repr

/-- Modelled from the spec: `utils.array.compare('x')` (`utils.js` is not
part of the provided sources); the spec's queries sort "ascending by
absolute axis distance" with this comparator family, so `compare(key)`
orders ascending by the named key (stable, like `Array.prototype.sort`). -/
def sortByX (l : List VoteTargetData) : List VoteTargetData :=
  List.insertionSort (fun a b => a.x ≤ b.x) l

instance : IsTotal VoteTargetData (fun a b => a.x ≤ b.x) :=
  ⟨fun a b => le_total a.x b.x⟩

instance : IsTrans VoteTargetData (fun a b => a.x ≤ b.x) :=
  ⟨fun _ _ _ hab hbc => le_trans hab hbc⟩

/-- The `data` slice read and written by `maybeFireOrBomb`. -/
structure FireBombData where
  firing : Bool
  bombing : Bool
  votesAmmo : ℕ
  votesBomb : ℕ
  ammo : ℕ
  bombs : ℕ
  onLandingPad : Bool
  ammoTargets : List VoteTargetData
  bombTargets : List VoteTargetData
  ammoTarget : Option VoteTargetData
deriving DecidableEq, Repr

/-- `setFiring` / `setBombing` for a CPU unit in local play (`callAction`
dispatches synchronously when no network is active): the state is applied
unless switching on while on the landing pad (on desktop). -/
def setFlagCPU (onLandingPad isMobile : Bool) (state : Bool) : Bool :=
  if !onLandingPad || isMobile || !state then state else false

/-- `maybeFireOrBomb(data, options)` from `Helicopter-AI.js`: switch
firing on when an ammo vote exists, off (clearing `data.ammoTarget`) when
none does, same for bombing; then, if firing with ammunition remaining,
sort `data.ammoTargets` ascending by `x`, set
`data.ammoTarget = data.ammoTargets[0]` and pass `data.ammoTargets[0].type`
to `setCPUFiringRate`; if bombing with bombs remaining, likewise sort
`data.bombTargets` by `x` and pass the head's type to
`setCPUBombingRate`.  Returns the updated data and the types handed to
`setCPUFiringRate` / `setCPUBombingRate` (when reached). -/
def maybeFireOrBomb (isMobile : Bool) (d : FireBombData) :
    FireBombData × Option UnitType × Option UnitType :=
  let d :=
    if !d.bombing && d.votesBomb ≠ 0 then
      { d with bombing := setFlagCPU d.onLandingPad isMobile true }
    else if d.bombing && d.votesBomb = 0 then
      { d with bombing := setFlagCPU d.onLandingPad isMobile false }
    else d
  let d :=
    if !d.firing && d.votesAmmo ≠ 0 then
      { d with firing := setFlagCPU d.onLandingPad isMobile true }
    else if d.firing && d.votesAmmo = 0 then
      { d with firing := setFlagCPU d.onLandingPad isMobile false,
               ammoTarget := none }
    else d
  let fireResult :
      FireBombData × Option UnitType :=
    if d.firing && d.ammo ≠ 0 then
      let sorted := sortByX d.ammoTargets
      ({ d with ammoTargets := sorted, ammoTarget := sorted.head? },
        sorted.head?.map (·.type))
    else (d, none)
  let d := fireResult.1
  if d.bombing && d.bombs ≠ 0 then
    let sortedB := sortByX d.bombTargets
    ({ d with bombTargets := sortedB }, fireResult.2,
      sortedB.head?.map (·.type))
  else (d, fireResult.2, none)

/-- `retaliationModeDuration` from `Helicopter-AI.js`. -/
def retaliationModeDuration : ℕ := 30000

/-- The `data.targeting` slice used by retaliation mode. -/
structure RetaliationData where
  attackB : Bool
  retaliation : Bool
deriving DecidableEq, Repr

/-- `maybeEngageRetaliationMode()` from `Helicopter-AI.js`: gated by
`levelConfig.killCopterB` and the attack flag, a no-op when retaliation is
already active; otherwise it schedules a frame timeout (returned here as
the delay in ms) whose callback runs
`data.targeting.retaliation = false` after `retaliationModeDuration`.
This is the function's entire effect on the flags: it contains no
assignment of `true` to `data.targeting.retaliation` (and no other code in
the repository assigns `true` to it; it is initialized `false`). -/
def maybeEngageRetaliationMode (killCopterB : Bool) (d : RetaliationData) :
    RetaliationData × Option ℕ :=
  if !killCopterB || !d.attackB then (d, none)
  else if d.retaliation then (d, none)
  else (d, some retaliationModeDuration)

/-- The callback of the timeout scheduled by `maybeEngageRetaliationMode`:
`data.targeting.retaliation = false`. -/
def retaliationTimeoutCallback (d : RetaliationData) : RetaliationData :=
  { d with retaliation := false }

/-- `throttleVelocity()` from `Helicopter-AI.js`: clamp `vX` and `vY` to
`±max`, where `max` is half of `vXMaxClipped` when clipping applies and
retaliation is off, and half of the unclipped `vXMax` otherwise. -/
def throttleVelocity (useClippedSpeed retaliation : Bool)
    (vXMaxClipped vXMax vX vY : ℚ) : ℚ × ℚ :=
  let m :=
    (if useClippedSpeed && !retaliation then vXMaxClipped else vXMax) / 2
  (max (-m) (min m vX), max (-m) (min m vY))

/-! ## Concrete scenario data -/

/-- Tween counterexample source: unit box at the origin moving right at
`vX = 3`, alive and unexpired. -/
def tweenCxSource : TweenData := ⟨0, 0, 1, 1, 3, 0, false, false⟩

/-- Tween counterexample target: thin static box overlapping the source
only at its end-of-frame position. -/
def tweenCxTarget : TweenData := ⟨1 / 2, 0, 1 / 5, 1, 0, 0, false, false⟩

/-- Tween witness source: large box moving right at `vX = 2`. -/
def tweenWitSource : TweenData := ⟨0, 0, 10, 10, 2, 0, false, false⟩

/-- Tween witness target: small box overlapped at both endpoints. -/
def tweenWitTarget : TweenData := ⟨1, 1, 1, 1, 0, 0, false, false⟩

/-- An engineer: infantry with the `role` flag, alive, friendly side. -/
def engineerSource : UData :=
  { id := "engineer_1", type := .infantry, x := 0, y := 0, width := 10,
    height := 10, vX := 0, vY := 0, dead := false, isInert := false,
    expired := false, hostile := false, isEnemy := false, isNeutral := false,
    excludeFromCollision := false, role := true, xLookAhead := none,
    widthOneThird := none }

/-- A dead enemy turret overlapping the engineer, not excluded from
collision. -/
def deadTurretTarget : UData :=
  { id := "turret_1", type := .turret, x := 2, y := 2, width := 5,
    height := 5, vX := 0, vY := 0, dead := true, isInert := false,
    expired := false, hostile := false, isEnemy := true, isNeutral := false,
    excludeFromCollision := false, role := false, xLookAhead := none,
    widthOneThird := none }

/-- A plain dispatch: no look-ahead, not friendly-only, no tween check. -/
def plainOpts : CollisionOpts :=
  { useLookAhead := false, friendlyOnly := false, checkTweens := false,
    checkTweensRepositionOnHit := false }

/-- The scenario super bunker: a blocking structure at total distance
50. -/
def superBunkerCand : NearCandidate := ⟨"superbunker_1", .superBunker, true, 50⟩

/-- The scenario opposing aircraft: non-bottom-aligned, at total distance
80. -/
def aircraftCand : NearCandidate := ⟨"helicopter_2", .helicopter, false, 80⟩

/-- A ground-bound (bottom-aligned) candidate at total distance 80. -/
def groundCand : NearCandidate := ⟨"tank_7", .tank, true, 80⟩

/-- The tank bomb-ledger target of the C4 scenario. -/
def tankTarget : BombTarget := ⟨"tank_1", .tank⟩

/-- A van bomb-ledger target (default limit 1). -/
def vanTarget : BombTarget := ⟨"van_1", .van⟩

/-- Ledger state after three guarded drops on the tank target. -/
def tankAfterThree : LedgerState :=
  runLedgerOps false .init [.drop tankTarget, .drop tankTarget,
    .drop tankTarget]

/-- C8 scenario `data` slice: a firing tick for a unit positioned at
`x = 100`, with ammo-vote targets at `x = 10` and `x = 90`. -/
def fireScenario : FireBombData :=
  { firing := true, bombing := false, votesAmmo := 1, votesBomb := 0,
    ammo := 5, bombs := 0, onLandingPad := false,
    ammoTargets := [⟨10, .tank⟩, ⟨90, .helicopter⟩], bombTargets := [],
    ammoTarget := none }

end ArmorAlley

namespace ArmorAlley

/-! ## Helper lemmas -/

/-- The offset overlap test, characterized as a conjunction of strict
inequalities. -/
theorem collisionCheckWithOffsets_iff (r1 r2 : Rect) (ox oy : ℚ) :
    collisionCheckWithOffsets r1 r2 ox oy = true ↔
      (r1.x + ox < r2.x + r2.width ∧ r1.x + r1.width + ox > r2.x ∧
       r1.y + oy < r2.y + r2.height ∧ r1.y + oy + r1.height > r2.y) := by
  unfold collisionCheckWithOffsets
  simp [Bool.and_eq_true, decide_eq_true_eq, and_assoc]

/-- The plain overlap test, characterized as a conjunction of strict
inequalities. -/
theorem cc_iff (r1 r2 : Rect) (la : ℚ) :
    cc r1 r2 la = true ↔
      (r1.x + la < r2.x + r2.width ∧ r1.x + r1.width + la > r2.x ∧
       r1.y < r2.y + r2.height ∧ r1.y + r1.height > r2.y) := by
  unfold cc
  simp [Bool.and_eq_true, decide_eq_true_eq, and_assoc]

/-- At zero offsets, the offset overlap test is the plain overlap test
with zero look-ahead. -/
theorem collisionCheckWithOffsets_zero (r1 r2 : Rect) :
    collisionCheckWithOffsets r1 r2 0 0 = cc r1 r2 0 := by
  simp [collisionCheckWithOffsets, cc, add_zero]

/-- The overlap-at-offset region is convex: if the test passes at two
offsets it passes at any strict convex combination of them. -/
theorem collisionCheckWithOffsets_convex (r1 r2 : Rect)
    {x1 y1 x2 y2 lam : ℚ}
    (h1 : collisionCheckWithOffsets r1 r2 x1 y1 = true)
    (h2 : collisionCheckWithOffsets r1 r2 x2 y2 = true)
    (h0 : 0 < lam) (hl : lam < 1) :
    collisionCheckWithOffsets r1 r2 (lam * x1 + (1 - lam) * x2)
      (lam * y1 + (1 - lam) * y2) = true := by
  rw [collisionCheckWithOffsets_iff] at h1 h2 ⊢
  obtain ⟨h1a, h1b, h1c, h1d⟩ := h1
  obtain ⟨h2a, h2b, h2c, h2d⟩ := h2
  refine ⟨?_, ?_, ?_, ?_⟩ <;> nlinarith

/-- The tween loop always runs at least one iteration
(`tweenSteps ≥ minTweenSteps = 2`). -/
theorem tweenStepCount_pos (sData : TweenData) : 0 < tweenStepCount sData := by
  have h2 : (2 : ℚ) ≤ tweenSteps sData := le_max_left _ _
  exact Nat.ceil_pos.mpr (lt_of_lt_of_le (by norm_num) h2)

/-- `tweenSteps + 1 ≥ 3`. -/
theorem tweenSteps_add_one_ge (sData : TweenData) :
    (3 : ℚ) ≤ tweenSteps sData + 1 := by
  have h2 : (2 : ℚ) ≤ tweenSteps sData := le_max_left _ _
  linarith

/-- The first offset checked by the tween loop is the convex combination
of the start offset `(-vX, -vY)` and the end offset `(0, 0)` with
coefficient `lam = tweenSteps / (tweenSteps + 1)`. -/
theorem tweenOffset_zero_eq (sData : TweenData) :
    tweenOffsetX sData 0 =
      (tweenSteps sData / (tweenSteps sData + 1)) * (-sData.vX) +
        (1 - tweenSteps sData / (tweenSteps sData + 1)) * 0 ∧
    tweenOffsetY sData 0 =
      (tweenSteps sData / (tweenSteps sData + 1)) * (-sData.vY) +
        (1 - tweenSteps sData / (tweenSteps sData + 1)) * 0 := by
  have hd : tweenSteps sData + 1 ≠ 0 := by
    have := tweenSteps_add_one_ge sData
    intro h
    rw [h] at this
    norm_num at this
  constructor
  · simp only [tweenOffsetX]
    push_cast
    field_simp
    ring
  · simp only [tweenOffsetY]
    push_cast
    field_simp
    ring

/-- The counterexample source moves fast enough for exactly two tween
steps. -/
theorem tweenSteps_cx : tweenSteps tweenCxSource = 2 := by
  unfold tweenSteps tweenCxSource
  norm_num

/-- The counterexample tween loop runs exactly twice. -/
theorem tweenStepCount_cx : tweenStepCount tweenCxSource = 2 := by
  rw [tweenStepCount, tweenSteps_cx]
  norm_num

end ArmorAlley

namespace ArmorAlley

/-! ## Claim theorems -/

/-- C1 counterexample: a non-exempt pair with nonzero source velocity
(`vX = 3`) for which the endpoint overlap test at the end-of-frame
(current) position returns true, while `collisionCheckTweens` returns
false — the tween loop checks only the strictly intermediate positions,
so it is not a superset of the endpoint checks. -/
theorem collisionCheckTweens_misses_endpoint_hit :
    (tweenCxSource.expired && !tweenCxSource.hostile) = false ∧
    (tweenCxTarget.expired && !tweenCxTarget.hostile) = false ∧
    ¬(tweenCxSource.vX = 0 ∧ tweenCxSource.vY = 0) ∧
    cc tweenCxSource.toRect tweenCxTarget.toRect 0 = true ∧
    collisionCheckTweens tweenCxSource tweenCxTarget = false := by
  refine ⟨rfl, rfl, ?_, ?_, ?_⟩
  · intro h
    have := h.1
    norm_num [tweenCxSource] at this
  · rw [cc_iff]
    norm_num [tweenCxSource, tweenCxTarget, TweenData.toRect]
  · unfold collisionCheckTweens
    rw [if_neg (by simp [tweenCxSource, tweenCxTarget])]
    rw [List.any_eq_false]
    intro i hi
    rw [tweenStepCount_cx, List.mem_range] at hi
    rw [collisionCheckWithOffsets_iff]
    have hox : tweenOffsetX tweenCxSource i = -3 + (i + 1) * 1 := by
      rw [tweenOffsetX, tweenSteps_cx]
      norm_num [tweenCxSource]
    have hoy : tweenOffsetY tweenCxSource i = 0 := by
      rw [tweenOffsetY, tweenSteps_cx]
      norm_num [tweenCxSource]
    interval_cases i <;>
      · rw [hox, hoy]
        norm_num [tweenCxSource, tweenCxTarget, TweenData.toRect]

/-- C1 (amended): for a pair not covered by the expired-and-non-hostile
exemption and nonzero source velocity, if the endpoint overlap test
succeeds at *both* the start-of-frame position (current position minus
velocity) and the end-of-frame (current) position, then
`collisionCheckTweens` returns true: the overlap region is convex along
the swept segment, so the first intermediate step must also overlap. -/
theorem collisionCheckTweens_of_both_endpoints (s t : TweenData)
    (hs : (s.expired && !s.hostile) = false)
    (ht : (t.expired && !t.hostile) = false)
    (hv : ¬(s.vX = 0 ∧ s.vY = 0))
    (hstart : collisionCheckWithOffsets s.toRect t.toRect (-s.vX) (-s.vY) =
      true)
    (hend : cc s.toRect t.toRect 0 = true) :
    collisionCheckTweens s t = true := by
  have hzero : collisionCheckWithOffsets s.toRect t.toRect 0 0 = true := by
    rw [collisionCheckWithOffsets_zero]
    exact hend
  have h3 : (3 : ℚ) ≤ tweenSteps s + 1 := tweenSteps_add_one_ge s
  have h0 : 0 < tweenSteps s / (tweenSteps s + 1) := by
    apply div_pos <;> linarith
  have hl : tweenSteps s / (tweenSteps s + 1) < 1 := by
    rw [div_lt_one (by linarith)]
    linarith
  have hfirst : collisionCheckWithOffsets s.toRect t.toRect
      (tweenOffsetX s 0) (tweenOffsetY s 0) = true := by
    rw [(tweenOffset_zero_eq s).1, (tweenOffset_zero_eq s).2]
    exact collisionCheckWithOffsets_convex s.toRect t.toRect hstart hzero h0 hl
  unfold collisionCheckTweens
  rw [if_neg (by simp [hs, ht])]
  rw [List.any_eq_true]
  exact ⟨0, List.mem_range.mpr (tweenStepCount_pos s), hfirst⟩

/-- C1 witness: a concrete pair overlapping at both endpoints, on which
the amended superset statement applies. -/
theorem collisionCheckTweens_of_both_endpoints_witness :
    collisionCheckTweens tweenWitSource tweenWitTarget = true :=
  collisionCheckTweens_of_both_endpoints tweenWitSource tweenWitTarget
    rfl rfl
    (by
      intro h
      have := h.1
      norm_num [tweenWitSource] at this)
    (by
      rw [collisionCheckWithOffsets_iff]
      norm_num [tweenWitSource, tweenWitTarget, TweenData.toRect])
    (by
      rw [cc_iff]
      norm_num [tweenWitSource, tweenWitTarget, TweenData.toRect])

/-- C9: for all rectangles, the offset-based overlap variant at zero
offsets coincides with the plain overlap test at zero look-ahead. -/
theorem collisionCheckWithOffsets_zero_eq_collisionCheck (r1 r2 : Rect) :
    collisionCheckWithOffsets r1 r2 0 0 = cc r1 r2 0 :=
  collisionCheckWithOffsets_zero r1 r2

end ArmorAlley

namespace ArmorAlley

/-! ## C2: which targets reach the hit callback -/

/-- A tween-hit reposition only moves the source: its type and role (and
every other non-position field) are unchanged. -/
theorem targetHitTest_type_role (opts : CollisionOpts) (s t : UData)
    (xla : ℚ) :
    (targetHitTest opts s t xla).1.type = s.type ∧
      (targetHitTest opts s t xla).1.role = s.role := by
  unfold targetHitTest
  split
  · exact ⟨rfl, rfl⟩
  · split
    · split
      · split <;> exact ⟨rfl, rfl⟩
      · split <;> exact ⟨rfl, rfl⟩
    · split <;> exact ⟨rfl, rfl⟩

/-- Every id the dispatch loop hands to the hit callback belongs to a
listed target that passed the eligibility check: not excluded, and not
dead unless it is a turret and the source an engineer. -/
theorem collisionCheckObjectLoop_hits_eligible (opts : CollisionOpts)
    (xla : ℚ) (targets : List UData) :
    ∀ (s : UData) (id : String),
      id ∈ (collisionCheckObjectLoop opts xla s targets).2.2 →
      ∃ t ∈ targets, t.id = id ∧ t.excludeFromCollision = false ∧
        (t.dead = false ∨
          (t.type = .turret ∧ s.type = .infantry ∧ s.role = true)) := by
  induction targets with
  | nil =>
    intro s id h
    simp [collisionCheckObjectLoop] at h
  | cons tData rest ih =>
    intro s id h
    simp only [collisionCheckObjectLoop] at h
    by_cases he : targetEligible opts s tData = true
    · rw [if_pos he] at h
      simp only [targetEligible, Bool.and_eq_true, Bool.or_eq_true,
        Bool.not_eq_true', decide_eq_true_eq] at he
      obtain ⟨⟨⟨hne, hex⟩, hdead⟩, hfac⟩ := he
      by_cases hh :
          (targetHitTest opts s tData xla).2 = true
      · rw [if_pos hh] at h
        rcases List.mem_cons.mp h with hid | hmem
        · exact ⟨tData, List.mem_cons_self _ _, hid.symm, hex,
            hdead.imp (fun hd => hd) fun hd => ⟨hd.1.1, hd.1.2, hd.2⟩⟩
        · obtain ⟨t, ht, hid, hex', hdead'⟩ :=
            ih (targetHitTest opts s tData xla).1 id hmem
          have hpres := targetHitTest_type_role opts s tData xla
          exact ⟨t, List.mem_cons_of_mem _ ht, hid, hex',
            hdead'.imp (fun hd => hd) fun hd =>
              ⟨hd.1, hpres.1 ▸ hd.2.1, hpres.2 ▸ hd.2.2⟩⟩
      · rw [if_neg hh] at h
        obtain ⟨t, ht, hid, hex', hdead'⟩ :=
          ih (targetHitTest opts s tData xla).1 id h
        have hpres := targetHitTest_type_role opts s tData xla
        exact ⟨t, List.mem_cons_of_mem _ ht, hid, hex',
          hdead'.imp (fun hd => hd) fun hd =>
            ⟨hd.1, hpres.1 ▸ hd.2.1, hpres.2 ▸ hd.2.2⟩⟩
    · rw [if_neg he] at h
      obtain ⟨t, ht, hid, hex', hdead'⟩ := ih s id h
      exact ⟨t, List.mem_cons_of_mem _ ht, hid, hex', hdead'⟩

/-- C2 (amended): in every collision dispatch pass, every id passed to
the `options.hit` callback belongs to a listed target that is not
excluded from collision and is not dead — except that a dead turret may
be reported when the source is an engineer (infantry with `role`), the
reclaim/repair special case. -/
theorem collisionCheckObject_hits_live_or_reclaimable_turret
    (opts : CollisionOpts) (s : UData) (targets : List UData) (id : String)
    (hid : id ∈ (collisionCheckObject opts s targets).2.2) :
    ∃ t ∈ targets, t.id = id ∧ t.excludeFromCollision = false ∧
      (t.dead = false ∨
        (t.type = .turret ∧ s.type = .infantry ∧ s.role = true)) := by
  unfold collisionCheckObject at hid
  split at hid
  · simp at hid
  · exact collisionCheckObjectLoop_hits_eligible _ _ targets s id hid

/-- C2 counterexample: a dispatch pass in which the hit callback *is*
invoked with the id of an already-dead unit — an engineer (infantry with
`role`) against an overlapping dead turret, the reclaim/repair special
case of the eligibility check. -/
theorem collisionCheckObject_hits_dead_turret :
    (collisionCheckObject plainOpts engineerSource [deadTurretTarget]).2.2 =
      ["turret_1"] ∧
    deadTurretTarget.dead = true ∧
    deadTurretTarget.excludeFromCollision = false := by
  refine ⟨?_, rfl, rfl⟩
  norm_num [collisionCheckObject, collisionCheckObjectLoop, targetEligible,
    targetHitTest, cc, UData.toRect, plainOpts, engineerSource,
    deadTurretTarget]
  simp [String.reduceEq]

/-- C2 witness: the amended guarantee applied to the concrete dead-turret
dispatch — the only reported id names a listed, non-excluded target that
is dead but falls under the engineer-vs-turret exception. -/
theorem collisionCheckObject_hits_live_witness :
    ∃ t ∈ [deadTurretTarget], t.id = "turret_1" ∧
      t.excludeFromCollision = false ∧
      (t.dead = false ∨
        (t.type = .turret ∧ engineerSource.type = .infantry ∧
          engineerSource.role = true)) :=
  collisionCheckObject_hits_live_or_reclaimable_turret plainOpts
    engineerSource [deadTurretTarget] "turret_1"
    (by
      norm_num [collisionCheckObject, collisionCheckObjectLoop,
        targetEligible, targetHitTest, cc, UData.toRect, plainOpts,
        engineerSource, deadTurretTarget]
      simp [String.reduceEq])

end ArmorAlley

namespace ArmorAlley

/-! ## Ledger lemmas -/

/-- A successful lookup returns the value of some stored pair. -/
theorem lookupEntry_mem {id : String} {l : List (String × LedgerEntry)}
    {e : LedgerEntry} (h : lookupEntry id l = some e) :
    ∃ p ∈ l, p.2 = e := by
  induction l with
  | nil => simp [lookupEntry] at h
  | cons p rest ih =>
    rw [lookupEntry] at h
    by_cases hp : p.1 = id
    · rw [if_pos hp] at h
      exact ⟨p, List.mem_cons_self _ _, Option.some.inj h⟩
    · rw [if_neg hp] at h
      obtain ⟨q, hq, he⟩ := ih h
      exact ⟨q, List.mem_cons_of_mem _ hq, he⟩

/-- Lookup skips a freshly prepended pair with a different key. -/
theorem lookupEntry_cons_ne {id id' : String} {e' : LedgerEntry}
    {l : List (String × LedgerEntry)} (h : id' ≠ id) :
    lookupEntry id ((id', e') :: l) = lookupEntry id l := by
  rw [lookupEntry, if_neg h]

/-- Lookup finds a freshly prepended pair with the same key. -/
theorem lookupEntry_cons_self {id : String} {e' : LedgerEntry}
    {l : List (String × LedgerEntry)} :
    lookupEntry id ((id, e') :: l) = some e' := by
  rw [lookupEntry, if_pos rfl]

/-- Updating a present key makes lookup return the new value. -/
theorem lookupEntry_update_self {id : String} {e e' : LedgerEntry}
    {l : List (String × LedgerEntry)}
    (h : lookupEntry id l = some e) :
    lookupEntry id (updateEntry id e' l) = some e' := by
  induction l with
  | nil => simp [lookupEntry] at h
  | cons p rest ih =>
    rw [lookupEntry] at h
    by_cases hp : p.1 = id
    · rw [updateEntry, List.map_cons, if_pos hp, lookupEntry, if_pos rfl]
    · rw [if_neg hp] at h
      rw [updateEntry, List.map_cons, if_neg hp, lookupEntry, if_neg hp]
      exact ih h

/-- Updating a different key does not change lookup. -/
theorem lookupEntry_update_ne {id id' : String} {e' : LedgerEntry}
    {l : List (String × LedgerEntry)} (h : id' ≠ id) :
    lookupEntry id (updateEntry id' e' l) = lookupEntry id l := by
  induction l with
  | nil => rfl
  | cons p rest ih =>
    by_cases hp : p.1 = id'
    · rw [updateEntry, List.map_cons, if_pos hp, lookupEntry,
        if_neg h, lookupEntry, if_neg (hp ▸ h)]
      exact ih
    · rw [updateEntry, List.map_cons, if_neg hp]
      rw [lookupEntry]
      conv_rhs => rw [lookupEntry]
      by_cases hq : p.1 = id
      · rw [if_pos hq, if_pos hq]
      · rw [if_neg hq, if_neg hq]
        exact ih

/-- Erasing a key removes it from lookup. -/
theorem lookupEntry_erase_self {id : String}
    {l : List (String × LedgerEntry)} :
    lookupEntry id (eraseEntry id l) = none := by
  induction l with
  | nil => rfl
  | cons p rest ih =>
    by_cases hp : p.1 = id
    · rw [eraseEntry, List.filter_cons_of_neg (by simp [hp])]
      exact ih
    · rw [eraseEntry, List.filter_cons_of_pos (by simp [hp]),
        lookupEntry, if_neg hp]
      exact ih

/-- Erasing a different key does not change lookup. -/
theorem lookupEntry_erase_ne {id id' : String}
    {l : List (String × LedgerEntry)} (h : id' ≠ id) :
    lookupEntry id (eraseEntry id' l) = lookupEntry id l := by
  induction l with
  | nil => rfl
  | cons p rest ih =>
    by_cases hp : p.1 = id'
    · rw [eraseEntry, List.filter_cons_of_neg (by simp [hp]),
        lookupEntry, if_neg (hp ▸ h)]
      exact ih
    · rw [eraseEntry, List.filter_cons_of_pos (by simp [hp])]
      rw [lookupEntry]
      conv_rhs => rw [lookupEntry]
      by_cases hq : p.1 = id
      · rw [if_pos hq, if_pos hq]
      · rw [if_neg hq, if_neg hq]
        exact ih

end ArmorAlley

namespace ArmorAlley

/-- Entry bounds survive `updateEntry` with a bounded new entry. -/
theorem entriesBounded_update {l : List (String × LedgerEntry)}
    (hl : EntriesBounded l) {id : String} {e : LedgerEntry}
    (he : e.bombCount ≤ e.bombLimit) :
    EntriesBounded (updateEntry id e l) := by
  intro p hp
  obtain ⟨q, hq, hfq⟩ := List.mem_map.mp hp
  by_cases h : q.1 = id
  · rw [if_pos h] at hfq
    rw [← hfq]
    exact he
  · rw [if_neg h] at hfq
    rw [← hfq]
    exact hl q hq

/-- Entry bounds survive `eraseEntry`. -/
theorem entriesBounded_erase {l : List (String × LedgerEntry)}
    (hl : EntriesBounded l) (id : String) :
    EntriesBounded (eraseEntry id l) :=
  fun p hp => hl p (List.mem_filter.mp hp).1

/-- A fresh entry created by `canBombTarget` is bounded: its count is 0
and its limit at least 1. -/
theorem entriesBounded_canBomb (bN : Bool) (t : BombTarget)
    (s : LedgerState) (hs : EntriesBounded s.bombsByTarget) :
    EntriesBounded (canBombTarget bN t s).2.bombsByTarget := by
  by_cases ht : t.type = .turret
  · simp only [canBombTarget, if_pos ht]
    exact hs
  · simp only [canBombTarget, if_neg ht]
    cases hl : lookupEntry (getBombTargetID bN t) s.bombsByTarget with
    | some e =>
      simp only [hl]
      exact hs
    | none =>
      simp only [hl]
      intro p hp
      rcases List.mem_cons.mp hp with hp | hp
      · rw [hp]
        exact Nat.zero_le _
      · exact hs p hp

/-- One ledger event preserves the per-entry bound, provided a guarded
drop never names a turret-typed target. -/
theorem entriesBounded_applyOp (bN : Bool) (op : LedgerOp) (s : LedgerState)
    (hs : EntriesBounded s.bombsByTarget)
    (hop : ∀ t, op = .drop t → t.type ≠ .turret) :
    EntriesBounded (applyLedgerOp bN s op).bombsByTarget := by
  cases op with
  | query t => exact entriesBounded_canBomb bN t s hs
  | drop t =>
    have hnt : t.type ≠ .turret := hop t rfl
    simp only [applyLedgerOp, tryDropBomb]
    split
    case isTrue hcan =>
      simp only [canBombTarget, if_neg hnt] at hcan ⊢
      cases hl : lookupEntry (getBombTargetID bN t) s.bombsByTarget with
      | some e =>
        simp only [hl, decide_eq_true_eq] at hcan ⊢
        simp only [addBomb, hl]
        exact entriesBounded_update hs (by dsimp only; omega)
      | none =>
        simp only [hl] at hcan ⊢
        simp only [addBomb, lookupEntry_cons_self]
        refine entriesBounded_update ?_ ?_
        · intro p hp
          rcases List.mem_cons.mp hp with hp | hp
          · rw [hp]
            exact Nat.zero_le _
          · exact hs p hp
        · dsimp only
          unfold bombLimitFor
          split <;> omega
    case isFalse =>
      exact entriesBounded_canBomb bN t s hs
  | remove t =>
    simp only [applyLedgerOp, removeBomb]
    cases hl : lookupEntry (getBombTargetID bN t) s.bombsByTarget with
    | none => simp only [hl]; exact hs
    | some e =>
      simp only [hl]
      obtain ⟨p, hp, hpe⟩ := lookupEntry_mem hl
      have hb : e.bombCount ≤ e.bombLimit := hpe ▸ hs p hp
      split
      · exact entriesBounded_erase hs _
      · exact entriesBounded_update hs (by dsimp only; omega)
  | clearDelay t =>
    simp only [applyLedgerOp, clearBombWithDelay]
    cases hl : lookupEntry (getBombTargetID bN t) s.bombsByTarget with
    | none => simp only [hl]; exact hs
    | some e =>
      simp only [hl]
      obtain ⟨p, hp, hpe⟩ := lookupEntry_mem hl
      have hb : e.bombCount ≤ e.bombLimit := hpe ▸ hs p hp
      cases e.timer with
      | some h' => simp only []; exact hs
      | none => exact entriesBounded_update hs hb
  | fire h =>
    simp only [applyLedgerOp, fireClearTimer]
    cases hf : s.pending.find? fun p => p.1 = h with
    | none => simp only [hf]; exact hs
    | some p =>
      simp only [hf]
      exact entriesBounded_erase hs _

/-- Running a turret-drop-free event sequence preserves the per-entry
bound. -/
theorem entriesBounded_run (bN : Bool) (ops : List LedgerOp) :
    ∀ (s : LedgerState), EntriesBounded s.bombsByTarget →
      noTurretDrops ops = true →
      EntriesBounded (runLedgerOps bN s ops).bombsByTarget := by
  induction ops with
  | nil => intro s hs _; exact hs
  | cons op rest ih =>
    intro s hs hops
    simp only [noTurretDrops, List.all_cons, Bool.and_eq_true] at hops
    refine ih (applyLedgerOp bN s op) ?_ ?_
    · refine entriesBounded_applyOp bN op s hs ?_
      intro t hop
      subst hop
      simpa using hops.1
    · exact hops.2

end ArmorAlley

namespace ArmorAlley

/-- A single ledger event that neither removes key `i` nor fires a clear
timeout scheduled for `i` keeps `i`'s entry present and at (or above) its
limit. -/
theorem fullEntry_applyOp (bN : Bool) (i : String) (op : LedgerOp)
    (s : LedgerState)
    (h : ∃ e, lookupEntry i s.bombsByTarget = some e ∧
      e.bombLimit ≤ e.bombCount)
    (hguard : opGuard bN i s op = true) :
    ∃ e, lookupEntry i (applyLedgerOp bN s op).bombsByTarget = some e ∧
      e.bombLimit ≤ e.bombCount := by
  obtain ⟨e, he, hbe⟩ := h
  cases op with
  | query t =>
    simp only [applyLedgerOp]
    by_cases ht : t.type = .turret
    · simp only [canBombTarget, if_pos ht]
      exact ⟨e, he, hbe⟩
    · simp only [canBombTarget, if_neg ht]
      by_cases hid : getBombTargetID bN t = i
      · rw [hid]
        simp only [he]
        exact ⟨e, by first | exact he | rfl, hbe⟩
      · cases hl : lookupEntry (getBombTargetID bN t) s.bombsByTarget with
        | some e' =>
          simp only [hl]
          exact ⟨e, he, hbe⟩
        | none =>
          simp only [hl]
          exact ⟨e, by (try dsimp only); rw [lookupEntry_cons_ne hid]; exact he,
            hbe⟩
  | drop t =>
    simp only [applyLedgerOp, tryDropBomb]
    by_cases ht : t.type = .turret
    · simp only [canBombTarget, if_pos ht, if_pos]
      by_cases hid : getBombTargetID bN t = i
      · simp only [addBomb, hid, he]
        exact ⟨_, lookupEntry_update_self he, by dsimp only; omega⟩
      · cases hl : lookupEntry (getBombTargetID bN t) s.bombsByTarget with
        | some e' =>
          simp only [addBomb, hl]
          exact ⟨e, by (try dsimp only); rw [lookupEntry_update_ne hid]; exact he,
            hbe⟩
        | none =>
          simp only [addBomb, hl]
          exact ⟨e, he, hbe⟩
    · simp only [canBombTarget, if_neg ht]
      by_cases hid : getBombTargetID bN t = i
      · rw [hid]
        simp only [he]
        have hfull : decide (e.bombCount < e.bombLimit) = false := by
          simp only [decide_eq_false_iff_not, not_lt]
          omega
        rw [hfull]
        simp only [Bool.false_eq_true, if_false]
        exact ⟨e, by first | exact he | rfl, hbe⟩
      · cases hl : lookupEntry (getBombTargetID bN t) s.bombsByTarget with
        | some e' =>
          simp only [hl]
          split
          · simp only [addBomb, hl]
            exact ⟨e, by (try dsimp only); rw [lookupEntry_update_ne hid]; exact he,
              hbe⟩
          · exact ⟨e, he, hbe⟩
        | none =>
          simp only [hl]
          split
          · simp only [addBomb, lookupEntry_cons_self]
            refine ⟨e, ?_, hbe⟩
            try dsimp only
            rw [lookupEntry_update_ne hid, lookupEntry_cons_ne hid]
            exact he
          · exact ⟨e, by (try dsimp only); rw [lookupEntry_cons_ne hid]; exact he,
              hbe⟩
  | remove t =>
    simp only [opGuard, decide_eq_true_eq] at hguard
    simp only [applyLedgerOp, removeBomb]
    cases hl : lookupEntry (getBombTargetID bN t) s.bombsByTarget with
    | none => exact ⟨e, he, hbe⟩
    | some e' =>
      simp only [hl]
      split
      · exact ⟨e, by (try dsimp only); rw [lookupEntry_erase_ne hguard]; exact he,
          hbe⟩
      · exact ⟨e, by (try dsimp only); rw [lookupEntry_update_ne hguard]; exact he,
          hbe⟩
  | clearDelay t =>
    simp only [applyLedgerOp, clearBombWithDelay]
    by_cases hid : getBombTargetID bN t = i
    · rw [hid]
      simp only [he]
      cases htimer : e.timer with
      | some h' =>
        simp only []
        exact ⟨e, by first | exact he | rfl, hbe⟩
      | none =>
        simp only []
        exact ⟨_, lookupEntry_update_self he, by dsimp only; omega⟩
    · cases hl : lookupEntry (getBombTargetID bN t) s.bombsByTarget with
      | none => exact ⟨e, he, hbe⟩
      | some e' =>
        simp only [hl]
        cases e'.timer with
        | some h' => exact ⟨e, he, hbe⟩
        | none =>
          exact ⟨e, by (try dsimp only); rw [lookupEntry_update_ne hid]; exact he,
            hbe⟩
  | fire hh =>
    simp only [applyLedgerOp, fireClearTimer]
    cases hf : s.pending.find? fun p => p.1 = hh with
    | none => exact ⟨e, he, hbe⟩
    | some p =>
      simp only [opGuard] at hguard
      rw [hf] at hguard
      simp only [decide_eq_true_eq] at hguard
      simp only [hf]
      exact ⟨e, by (try dsimp only); rw [lookupEntry_erase_ne hguard]; exact he,
        hbe⟩

/-- Over a whole event sequence that never releases key `i`
(`avoidsRelease`), a full entry stays present and full. -/
theorem fullEntry_run (bN : Bool) (i : String) (ops : List LedgerOp) :
    ∀ (s : LedgerState),
      (∃ e, lookupEntry i s.bombsByTarget = some e ∧
        e.bombLimit ≤ e.bombCount) →
      avoidsRelease bN i s ops = true →
      ∃ e, lookupEntry i (runLedgerOps bN s ops).bombsByTarget = some e ∧
        e.bombLimit ≤ e.bombCount := by
  induction ops with
  | nil =>
    intro s h _
    exact h
  | cons op rest ih =>
    intro s h ha
    rw [avoidsRelease, Bool.and_eq_true] at ha
    simp only [runLedgerOps, List.foldl_cons]
    exact ih (applyLedgerOp bN s op)
      (fullEntry_applyOp bN i op s h ha.1) ha.2

/-- An entry at (or above) its limit makes `canBombTarget` answer
false for its non-turret target. -/
theorem canBombTarget_false_of_full (bN : Bool) (t : BombTarget)
    (ht : t.type ≠ .turret) (s : LedgerState)
    (h : ∃ e, lookupEntry (getBombTargetID bN t) s.bombsByTarget = some e ∧
      e.bombLimit ≤ e.bombCount) :
    (canBombTarget bN t s).1 = false := by
  obtain ⟨e, he, hbe⟩ := h
  simp only [canBombTarget, if_neg ht, he]
  simp only [decide_eq_false_iff_not, not_lt]
  omega

end ArmorAlley

namespace ArmorAlley

/-- C3 counterexample: the ledger invariant fails as stated — a single
`canBombTarget` query creates (and keeps) an entry with `bombCount 0`;
an entry with count 0 does exist and is not removed eagerly. -/
theorem ledger_zero_count_entry_exists :
    lookupEntry "tank_1"
      (runLedgerOps false .init [.query tankTarget]).bombsByTarget =
      some { bombCount := 0, bombLimit := 3, timer := none } ∧
    ¬(1 ≤ (0 : ℕ)) := by
  refine ⟨by decide, by omega⟩

/-- C3 (amended): after every finite sequence of ledger calls in which
each `addBomb` is guarded by an immediately preceding successful
`canBombTarget` on the same target (the only call-site protocol) and no
guarded drop names a turret, every entry present in the ledger has
`bombCount ≤ bombLimit`.  (Entries with count 0 *do* exist: they are
created by `canBombTarget` itself.) -/
theorem ledger_count_le_limit (bN : Bool) (ops : List LedgerOp)
    (hops : noTurretDrops ops = true) (id : String) (e : LedgerEntry)
    (he : lookupEntry id
      (runLedgerOps bN LedgerState.init ops).bombsByTarget = some e) :
    e.bombCount ≤ e.bombLimit := by
  have hrun :=
    entriesBounded_run bN ops LedgerState.init
      (by intro p hp; simp [LedgerState.init] at hp) hops
  obtain ⟨p, hp, hpe⟩ := lookupEntry_mem he
  exact hpe ▸ hrun p hp

/-- C3 witness: a concrete guarded run — one drop on the tank, one query
on a van — whose tank entry holds count 1 against limit 3. -/
theorem ledger_count_le_limit_witness :
    ({ bombCount := 1, bombLimit := 3, timer := none } :
      LedgerEntry).bombCount ≤
      ({ bombCount := 1, bombLimit := 3, timer := none } :
        LedgerEntry).bombLimit :=
  ledger_count_le_limit false [.drop tankTarget, .query vanTarget]
    (by decide) "tank_1" { bombCount := 1, bombLimit := 3, timer := none }
    (by decide)

/-- C4: three guarded `canBombTarget`-then-`addBomb` rounds against the
same tank all succeed; the fourth `canBombTarget` returns false; it keeps
returning false over any continuation that neither removes the tank's
ledger slot nor lets a scheduled clear timeout for it expire; and either
a `removeBomb` or an expired `clearBombWithDelay` timer makes
`canBombTarget` answer true again. -/
theorem tank_bomb_quota_three :
    (canBombTarget false tankTarget .init).1 = true ∧
    (canBombTarget false tankTarget
      (runLedgerOps false .init [.drop tankTarget])).1 = true ∧
    (canBombTarget false tankTarget
      (runLedgerOps false .init [.drop tankTarget, .drop tankTarget])).1 =
      true ∧
    (canBombTarget false tankTarget tankAfterThree).1 = false ∧
    (∀ ops : List LedgerOp,
      avoidsRelease false "tank_1" tankAfterThree ops = true →
      (canBombTarget false tankTarget
        (runLedgerOps false tankAfterThree ops)).1 = false) ∧
    (canBombTarget false tankTarget
      (removeBomb false tankTarget tankAfterThree)).1 = true ∧
    (canBombTarget false tankTarget
      (runLedgerOps false tankAfterThree
        [.clearDelay tankTarget, .fire tankAfterThree.nextHandle])).1 =
      true := by
  refine ⟨by decide, by decide, by decide, by decide, ?_, by decide,
    by decide⟩
  intro ops ha
  refine canBombTarget_false_of_full false tankTarget (by decide) _ ?_
  exact fullEntry_run false "tank_1" ops tankAfterThree
    ⟨{ bombCount := 3, bombLimit := 3, timer := none }, by decide,
      by decide⟩ ha

/-- C4 witness: the quota theorem's continuation clause applied to a
concrete continuation (a query on another target), under which the
fourth-call refusal persists. -/
theorem tank_bomb_quota_three_witness :
    (canBombTarget false tankTarget
      (runLedgerOps false tankAfterThree [.query vanTarget])).1 = false :=
  tank_bomb_quota_three.2.2.2.2.1 [.query vanTarget] (by decide)

/-- C10: `removeBomb` and `addBomb` are total at the ledger interface:
with no entry under the target's key both are no-ops (`addBomb` never
creates an entry); on an existing entry `removeBomb` decrements with a
floor of 0 (natural subtraction) and deletes the entry exactly when the
new count is 0. -/
theorem removeBomb_addBomb_total (bN : Bool) (t : BombTarget)
    (s : LedgerState) :
    (lookupEntry (getBombTargetID bN t) s.bombsByTarget = none →
      removeBomb bN t s = s ∧ addBomb bN t s = s) ∧
    (∀ e, lookupEntry (getBombTargetID bN t) s.bombsByTarget = some e →
      lookupEntry (getBombTargetID bN t)
        (removeBomb bN t s).bombsByTarget =
        (if e.bombCount - 1 = 0 then none
         else some { bombCount := e.bombCount - 1,
                     bombLimit := e.bombLimit, timer := e.timer })) := by
  constructor
  · intro hl
    constructor
    · simp only [removeBomb, hl]
    · simp only [addBomb, hl]
  · intro e he
    simp only [removeBomb, he]
    by_cases h0 : e.bombCount - 1 = 0
    · rw [if_pos h0, if_pos h0]
      exact lookupEntry_erase_self
    · rw [if_neg h0, if_neg h0]
      exact lookupEntry_update_self he

/-- C10 witness: on a ledger holding only the tank entry at count 1, a
`removeBomb` on the tank deletes the entry, and both `removeBomb` and
`addBomb` on the absent van key are no-ops. -/
theorem removeBomb_addBomb_total_witness :
    (removeBomb false vanTarget
        (runLedgerOps false .init [.drop tankTarget]) =
      runLedgerOps false .init [.drop tankTarget] ∧
     addBomb false vanTarget
        (runLedgerOps false .init [.drop tankTarget]) =
      runLedgerOps false .init [.drop tankTarget]) ∧
    lookupEntry "tank_1"
      (removeBomb false tankTarget
        (runLedgerOps false .init [.drop tankTarget])).bombsByTarget =
      none := by
  constructor
  · exact (removeBomb_addBomb_total false vanTarget
      (runLedgerOps false .init [.drop tankTarget])).1 (by decide)
  · have h := (removeBomb_addBomb_total false tankTarget
      (runLedgerOps false .init [.drop tankTarget])).2
      { bombCount := 1, bombLimit := 3, timer := none } (by decide)
    simpa using h

end ArmorAlley

namespace ArmorAlley

/-- C5 counterexample: for an *enemy* helicopter source — whose candidate
list is reversed after the distance sort — the scenario {super bunker at
50, ground-bound candidate at 80} does not return "no target": the
reversal puts the ground-bound candidate first, the occlusion rule does
not fire, and its id is returned. -/
theorem getNearestObject_enemy_returns_ground :
    getNearestObjectSelect .helicopter true [superBunkerCand, groundCand] =
      some "tank_7" := by
  decide

/-- C5 (amended): with candidates {super bunker at distance 50, opposing
non-bottom-aligned aircraft at distance 80}, a helicopter source of
either faction gets the aircraft despite it being farther; a lone super
bunker yields no target for either faction; and the ground-bound-next
case yields no target for a non-enemy helicopter source (for an enemy
one the reversed order returns the ground candidate instead, per the
counterexample). -/
theorem getNearestObject_superbunker_occlusion :
    getNearestObjectSelect .helicopter false
      [superBunkerCand, aircraftCand] = some "helicopter_2" ∧
    getNearestObjectSelect .helicopter true
      [superBunkerCand, aircraftCand] = some "helicopter_2" ∧
    getNearestObjectSelect .helicopter false [superBunkerCand] = none ∧
    getNearestObjectSelect .helicopter true [superBunkerCand] = none ∧
    getNearestObjectSelect .helicopter false [superBunkerCand, groundCand] =
      none := by
  refine ⟨by decide, by decide, by decide, by decide, by decide⟩

/-- C6: evaluating `maybeEngageRetaliationMode` at a triggering input
(config `killCopterB` set, attack mode on, retaliation not active): the
function leaves `data.targeting.retaliation` false — it only schedules
the 30000 ms timeout whose callback *clears* the flag, and never assigns
true (nor does any other code in the repository; the flag is initialized
false).  The velocity clamp itself does use half the unclipped maximum
when the flag is true, and half the clipped maximum otherwise — but with
the flag never set, the relaxed limit is unreachable. -/
theorem maybeEngageRetaliationMode_never_sets_flag :
    (maybeEngageRetaliationMode true ⟨true, false⟩).1.retaliation = false ∧
    (maybeEngageRetaliationMode true ⟨true, false⟩).2 = some 30000 ∧
    (retaliationTimeoutCallback
      (maybeEngageRetaliationMode true ⟨true, false⟩).1).retaliation =
      false ∧
    throttleVelocity true true 2 8 100 (-100) = (4, -4) ∧
    throttleVelocity true false 2 8 100 (-100) = (1, -1) := by
  refine ⟨by decide, by decide, by decide, ?_, ?_⟩
  · norm_num [throttleVelocity]
  · norm_num [throttleVelocity]

end ArmorAlley

namespace ArmorAlley

/-! ## C7: query construction on unknown tokens -/

/-- A delimiter-free character list is unchanged by delimiter
collapsing. -/
theorem collapseDelims_id :
    ∀ (l : List Char), (∀ c ∈ l, isDelimChar c = false) →
      collapseDelims l = l
  | [], _ => rfl
  | [c], h => by
    rw [collapseDelims, if_neg (by simp [h c (List.mem_singleton_self c)])]
  | c1 :: c2 :: rest, h => by
    rw [collapseDelims]
    rw [if_neg (by simp [h c1 (List.mem_cons_self _ _)]),
      if_neg (by simp [h c1 (List.mem_cons_self _ _)])]
    rw [collapseDelims_id (c2 :: rest)
      fun c hc => h c (List.mem_cons_of_mem _ hc)]

/-- Splitting a list that contains no separator yields the whole list as
the single piece. -/
theorem splitChars_single (sep : Char) :
    ∀ (l : List Char), (∀ c ∈ l, ¬(c = sep)) →
      splitChars sep l = [l]
  | [], _ => rfl
  | c :: rest, h => by
    rw [splitChars]
    rw [splitChars_single sep rest
      fun c' hc => h c' (List.mem_cons_of_mem _ hc)]
    rw [if_neg (h c (List.mem_cons_self _ _))]

/-- `String.mk` undoes `String.toList`. -/
theorem String.mk_toList (s : String) : String.mk s.toList = s := rfl

/-- A single delimiter-free token parses to itself. -/
theorem parseTypeString_single (token : String)
    (h : ∀ c ∈ token.toList, isDelimChar c = false) :
    parseTypeString token = [token] := by
  have hs : ∀ c ∈ token.toList, ¬(c = ' ') := by
    intro c hc he
    have hd := h c hc
    rw [he] at hd
    simp [isDelimChar] at hd
  unfold parseTypeString
  rw [collapseDelims_id token.toList h,
    splitChars_single ' ' token.toList hs]
  simp [String.mk_toList]

end ArmorAlley

namespace ArmorAlley

/-- C7 counterexample: constructing a query from the unknown type token
`"zeppelin"` does not fault — `getTypes` returns normally with a single
entry whose `type` is `undefined` (`TYPES` lookup misses), i.e. a query
spec that silently matches nothing. -/
theorem getTypes_unknown_token_returns_silently :
    getTypes "zeppelin" none (some ⟨false, false⟩) =
      [{ type := none, group := some "enemy" }] ∧
    lookupTYPES "zeppelin" = none := by
  refine ⟨by decide, by decide⟩

/-- C7 (amended): `getTypes` never faults on an unknown type token — for
every delimiter-free, colon-free token missing from the `TYPES` table,
and any group/exports options, it returns exactly one entry and that
entry's `type` is `undefined`; the resulting spec silently matches
nothing (the zone bucket lookup for an undefined type yields no targets),
rather than faulting at construction time as the spec demands. -/
theorem getTypes_unknown_token_type_none (token : String)
    (htok : token.toList.all
      (fun c => !isDelimChar c && !(c = ':')) = true)
    (hunknown : lookupTYPES token = none)
    (g : Option String) (ex : Option ExportsData) :
    (getTypes token g ex).length = 1 ∧
      ∀ item ∈ getTypes token g ex, item.type = none := by
  have hall := List.all_eq_true.mp htok
  have hdelim : ∀ c ∈ token.toList, isDelimChar c = false := by
    intro c hc
    have := hall c hc
    simp only [Bool.and_eq_true, Bool.not_eq_true'] at this
    exact this.1
  have hcolon : token.toList.contains ':' = false := by
    rw [List.contains_eq_any_beq, List.any_eq_false]
    intro c hc
    have := hall c hc
    simp only [Bool.and_eq_true, Bool.not_eq_true'] at this
    simpa [BEq.beq] using fun he : (':' : Char) = c => by
      rw [← he] at this
      simp at this
  have hparse := parseTypeString_single token hdelim
  unfold getTypes
  rw [hparse]
  simp only [List.map_cons, List.map_nil, hcolon, Bool.false_eq_true,
    if_false, hunknown]
  constructor
  · rfl
  · intro item hitem
    rw [List.mem_singleton.mp hitem]

/-- C7 witness: the amended statement applied to the token
`"zeppelin"`. -/
theorem getTypes_unknown_token_type_none_witness :
    (getTypes "zeppelin" (some "all") none).length = 1 ∧
      ∀ item ∈ getTypes "zeppelin" (some "all") none, item.type = none :=
  getTypes_unknown_token_type_none "zeppelin" (by decide) (by decide)
    (some "all") none

end ArmorAlley

namespace ArmorAlley

/-! ## C8: rate-setting target selection -/

/-- The head of `sortByX` is a member of the original list and has the
least `x`. -/
theorem sortByX_head_min (l : List VoteTargetData) (m : VoteTargetData)
    (hm : (sortByX l).head? = some m) :
    m ∈ l ∧ ∀ t ∈ l, m.x ≤ t.x := by
  have hperm := List.perm_insertionSort (fun a b => a.x ≤ b.x) l
  have hsorted := List.sorted_insertionSort (fun a b => a.x ≤ b.x) l
  unfold sortByX at hm
  cases hs : List.insertionSort (fun a b => a.x ≤ b.x) l with
  | nil => rw [hs] at hm; simp at hm
  | cons a rest =>
    rw [hs] at hm
    simp only [List.head?_cons, Option.some.injEq] at hm
    subst hm
    rw [hs] at hperm hsorted
    constructor
    · exact hperm.subset (List.mem_cons_self _ _)
    · intro t ht
      rcases List.mem_cons.mp (hperm.symm.subset ht) with rfl | hrest
      · exact le_refl _
      · exact List.rel_of_sorted_cons hsorted t hrest

/-- C8 counterexample: a firing tick for a unit at `x = 100` with ammo
votes at `x = 10` and `x = 90`: the code selects the target at `x = 10`
(the leftmost after sorting by `x`), although the vote at `x = 90` is
horizontally nearer to the unit's own position. -/
theorem ammoTarget_not_horizontally_nearest :
    (maybeFireOrBomb false fireScenario).1.ammoTarget =
      some ⟨10, .tank⟩ ∧
    (maybeFireOrBomb false fireScenario).2.1 = some .tank ∧
    (⟨90, .helicopter⟩ : VoteTargetData) ∈ fireScenario.ammoTargets ∧
    |(90 : ℚ) - 100| < |(10 : ℚ) - 100| := by
  refine ⟨by decide, by decide, by decide, by norm_num⟩

/-- On a firing tick with ammunition and votes, `maybeFireOrBomb`
records the head of the x-sorted ammo votes in `data.ammoTarget` and
passes its type to `setCPUFiringRate`. -/
theorem maybeFireOrBomb_firing_sel (isMobile : Bool) (d : FireBombData)
    (hf : d.firing = true) (hv : d.votesAmmo ≠ 0) (ha : d.ammo ≠ 0) :
    (maybeFireOrBomb isMobile d).1.ammoTarget =
      (sortByX d.ammoTargets).head? ∧
    (maybeFireOrBomb isMobile d).2.1 =
      ((sortByX d.ammoTargets).head?).map (fun t => t.type) := by
  simp only [maybeFireOrBomb]
  split_ifs <;> simp_all

/-- C8 (amended): on every tick on which the unit is firing, has
ammunition remaining and at least one ammo vote was cast, the target
recorded in `data.ammoTarget` (whose type is passed to
`setCPUFiringRate`) is the one with the smallest `x` coordinate — the
leftmost — among that tick's ammo-vote targets; this coincides with the
horizontally-nearest only when the unit sits left of all voted
targets. -/
theorem ammoTarget_is_leftmost (isMobile : Bool) (d : FireBombData)
    (hf : d.firing = true) (hv : d.votesAmmo ≠ 0) (ha : d.ammo ≠ 0)
    (m : VoteTargetData)
    (hm : (maybeFireOrBomb isMobile d).1.ammoTarget = some m) :
    m ∈ d.ammoTargets ∧ (∀ t ∈ d.ammoTargets, m.x ≤ t.x) ∧
      (maybeFireOrBomb isMobile d).2.1 = some m.type := by
  obtain ⟨hsel, hrate⟩ := maybeFireOrBomb_firing_sel isMobile d hf hv ha
  rw [hsel] at hm
  obtain ⟨hmem, hmin⟩ := sortByX_head_min d.ammoTargets m hm
  refine ⟨hmem, hmin, ?_⟩
  rw [hrate, hm]
  rfl

/-- C8 witness: the amended statement applied to the concrete firing
scenario — the recorded target is the vote at `x = 10`, the leftmost. -/
theorem ammoTarget_is_leftmost_witness :
    (⟨10, .tank⟩ : VoteTargetData) ∈ fireScenario.ammoTargets ∧
    (∀ t ∈ fireScenario.ammoTargets,
      (⟨10, .tank⟩ : VoteTargetData).x ≤ t.x) ∧
    (maybeFireOrBomb false fireScenario).2.1 =
      some (⟨10, .tank⟩ : VoteTargetData).type :=
  ammoTarget_is_leftmost false fireScenario rfl (by decide) (by decide)
    ⟨10, .tank⟩ (by decide)

end ArmorAlley
